import Mathlib

/-!
Verification of the Dynamic Pricing Engine (`pricing_engine.py`).

Shallow embedding of the four modelling components:
`GammaPoissonMixture`, `PriceElasticityModel`, `BayesianABTest`,
`BayesianOptimizer`, and the interval derivation of
`DynamicPricingEngine.optimize_price`.

Python floats are modelled as exact rationals wherever the claims only
involve field arithmetic and order; for the Gamma-Poisson fit, where
division by zero produces a non-finite IEEE value, floats are modelled
by `PyFloat`, a rational extended with a single `nonfin` element that
absorbs every arithmetic operation (IEEE NaN propagates through `+`,
`-`, `*`, `/`; the one operation that *creates* a non-finite value on
the traces analysed here is division by zero, which IEEE maps to NaN or
an infinity — both collapsed into `nonfin`).
-/

/-- A Python/NumPy float: either a finite value (modelled exactly as a
rational) or a non-finite value (NaN or an infinity, collapsed). -/
inductive PyFloat where
  | fin (q : ℚ)
  | nonfin
  deriving DecidableEq, Repr

namespace PyFloat

/-- IEEE addition: NaN/Inf absorbs. -/
def add : PyFloat → PyFloat → PyFloat
  | fin a, fin b => fin (a + b)
  | _, _ => nonfin

/-- IEEE division: division by zero yields a non-finite value
(NaN for `0/0`, an infinity otherwise); NaN/Inf absorbs. -/
def div : PyFloat → PyFloat → PyFloat
  | fin a, fin b => if b = 0 then nonfin else fin (a / b)
  | _, _ => nonfin

instance : Add PyFloat := ⟨add⟩
instance : Div PyFloat := ⟨div⟩

/-- Whether the value is finite (not NaN, not ±Inf). -/
def isFinite : PyFloat → Bool
  | fin _ => true
  | nonfin => false

@[simp] lemma fin_add_fin (a b : ℚ) : fin a + fin b = fin (a + b) := rfl

@[simp] lemma nonfin_add (x : PyFloat) : nonfin + x = nonfin := by cases x <;> rfl

@[simp] lemma add_nonfin (x : PyFloat) : x + nonfin = nonfin := by cases x <;> rfl

@[simp] lemma nonfin_div (x : PyFloat) : nonfin / x = nonfin := by cases x <;> rfl

@[simp] lemma div_nonfin (x : PyFloat) : x / nonfin = nonfin := by cases x <;> rfl

@[simp] lemma fin_div_fin_of_ne (a : ℚ) {b : ℚ} (h : b ≠ 0) :
    fin a / fin b = fin (a / b) := by
  show div (fin a) (fin b) = fin (a / b)
  simp [div, h]

@[simp] lemma fin_div_fin_zero (a : ℚ) : fin a / fin 0 = nonfin := by
  show div (fin a) (fin 0) = nonfin
  simp [div]

end PyFloat

namespace GammaPoissonMixture

/-- The mutable state of `GammaPoissonMixture`: the Gamma shape `alpha`
and rate `beta` (the retained `lambda_samples` are diagnostics only and
are not modelled). -/
structure State where
  alpha : PyFloat
  beta : PyFloat
  deriving DecidableEq, Repr

/-- One iteration of the loop body of `GammaPoissonMixture.fit`:
`self.alpha = (self.alpha + sum_purchases) / (1 + n / self.beta)` then
`self.beta = (self.beta + n) / (self.alpha + sum_purchases / n)`, where
the second line reads the freshly assigned `alpha` and the old `beta`.
`n` is the length of `purchase_data` and `S` its sum. -/
def fitStep (n S : PyFloat) (s : State) : State :=
  let a := (s.alpha + S) / (PyFloat.fin 1 + n / s.beta)
  { alpha := a, beta := (s.beta + n) / (a + S / n) }

/-- Model of `GammaPoissonMixture.fit(purchase_data, n_iter)`: runs `fitStep`
`n_iter` times (default `n_iter = 1000`). `np.sum` of an empty array
is `0.0`. -/
def fit (purchase_data : List ℚ) (n_iter : ℕ) (s : State) : State :=
  (fitStep (PyFloat.fin purchase_data.length) (PyFloat.fin purchase_data.sum))^[n_iter] s

/-- The constructor default state: `alpha = 2.0`, `beta = 1.0`. -/
def initState : State := ⟨PyFloat.fin 2, PyFloat.fin 1⟩

/-- The state in which both parameters have become non-finite. -/
def nanState : State := ⟨PyFloat.nonfin, PyFloat.nonfin⟩

lemma fitStep_nanState (n S : PyFloat) : fitStep n S nanState = nanState := by
  cases n <;> cases S <;> rfl

lemma fit_empty_two_steps :
    (fitStep (PyFloat.fin 0) (PyFloat.fin 0))^[2] initState = nanState := by
  show fitStep _ _ (fitStep _ _ initState) = nanState
  simp only [fitStep, initState, nanState]
  norm_num

end GammaPoissonMixture

/-- Claim C2: for every call to `GammaPoissonMixture.fit`, when the
observation sequence is empty (`n = 0`) the call either leaves
`(alpha, beta)` unchanged or fails with `DomainError`, and in every case
no NaN or infinite value is ever stored into `alpha` or `beta`.
REFUTED by evaluation: `fit` on an empty array with the default
`n_iter = 1000` computes `sum_purchases / n = 0.0 / 0`, a NaN, and
stores non-finite values into both `beta` (first iteration) and `alpha`
(second iteration); the call raises nothing and the final state is
non-finite in both fields. -/
theorem C2_fit_empty_stores_nonfinite :
    (GammaPoissonMixture.fit [] 1000 GammaPoissonMixture.initState).beta = PyFloat.nonfin ∧
    (GammaPoissonMixture.fit [] 1000 GammaPoissonMixture.initState).alpha = PyFloat.nonfin ∧
    GammaPoissonMixture.fit [] 1000 GammaPoissonMixture.initState ≠
      GammaPoissonMixture.initState := by
  have h : GammaPoissonMixture.fit [] 1000 GammaPoissonMixture.initState =
      GammaPoissonMixture.nanState := by
    show (GammaPoissonMixture.fitStep (PyFloat.fin 0) (PyFloat.fin 0))^[1000]
        GammaPoissonMixture.initState = GammaPoissonMixture.nanState
    have h2 : (998 : ℕ) + 2 = 1000 := by norm_num
    rw [← h2, Function.iterate_add_apply, GammaPoissonMixture.fit_empty_two_steps,
      Function.iterate_fixed (GammaPoissonMixture.fitStep_nanState _ _)]
  rw [h]
  refine ⟨rfl, rfl, ?_⟩
  decide

namespace BayesianABTest

/-- One stored variant record: the entries of the dict value built by
`BayesianABTest.update_variant`. Conversions and trials are Python ints. -/
structure VariantRecord where
  alpha : ℚ
  beta : ℚ
  mean : ℚ
  conversions : ℤ
  trials : ℤ
  deriving DecidableEq, Repr

/-- The analyzer state: the Beta prior parameters and the `results`
dict, modelled as an insertion-ordered association list. -/
structure State where
  prior_alpha : ℚ
  prior_beta : ℚ
  results : List (String × VariantRecord)
  deriving DecidableEq, Repr

/-- Python dict assignment `d[k] = v`: an existing key keeps its
position and gets the new value; a new key is appended at the end. -/
def dictInsert : List (String × α) → String → α → List (String × α)
  | [], k, v => [(k, v)]
  | (k0, v0) :: rest, k, v =>
      if k0 = k then (k, v) :: rest else (k0, v0) :: dictInsert rest k v

/-- Model of `BayesianABTest.update_variant(variant_name, conversions, trials)`:
stores `{alpha: priorα+conversions, beta: priorβ+trials−conversions,
mean: α/(α+β), conversions, trials}` under `variant_name`, with no
precondition check anywhere in the source. -/
def update_variant (t : State) (variant_name : String) (conversions trials : ℤ) : State :=
  let posterior_alpha : ℚ := t.prior_alpha + conversions
  let posterior_beta : ℚ := t.prior_beta + trials - conversions
  let record : VariantRecord :=
    ⟨posterior_alpha, posterior_beta,
      posterior_alpha / (posterior_alpha + posterior_beta), conversions, trials⟩
  { t with results := dictInsert t.results variant_name record }

lemma lookup_dictInsert_self (l : List (String × α)) (k : String) (v : α) :
    List.lookup k (dictInsert l k v) = some v := by
  induction l with
  | nil => exact List.lookup_cons_self
  | cons p rest ih =>
      obtain ⟨k0, v0⟩ := p
      by_cases h : k0 = k
      · rw [dictInsert, if_pos h]
        exact List.lookup_cons_self
      · rw [dictInsert, if_neg h, List.lookup_cons]
        have hb : (k == k0) = false := by
          simp only [beq_eq_false_iff_ne, ne_eq]
          exact fun hq => h hq.symm
        rw [hb]
        exact ih

lemma lookup_dictInsert_ne (l : List (String × α)) (k k' : String) (v : α)
    (h : k' ≠ k) : List.lookup k' (dictInsert l k v) = List.lookup k' l := by
  have hb : (k' == k) = false := by simp only [beq_eq_false_iff_ne, ne_eq]; exact h
  induction l with
  | nil =>
      rw [dictInsert, List.lookup_cons, hb, List.lookup_nil]
  | cons p rest ih =>
      obtain ⟨k0, v0⟩ := p
      by_cases h0 : k0 = k
      · subst h0
        rw [dictInsert, if_pos rfl, List.lookup_cons, List.lookup_cons, hb]
      · rw [dictInsert, if_neg h0, List.lookup_cons, List.lookup_cons]
        cases hbk : (k' == k0)
        · simp only [ih]
        · rfl

end BayesianABTest

/-- Claim C5: `update_variant(name, conversions, trials)` with
`0 ≤ conversions ≤ trials` stores, under `name`, posterior
`alpha = priorα + conversions`, `beta = priorβ + trials − conversions`,
`mean = α/(α+β)`, replacing any existing record for that name and
leaving every other name's record unchanged; `conversions = trials = 0`
yields a posterior exactly equal to the prior. CONFIRMED. -/
theorem C5_update_variant_posterior (t : BayesianABTest.State) (name : String)
    (c tr : ℤ) (h0 : 0 ≤ c) (h1 : c ≤ tr) :
    (List.lookup name (BayesianABTest.update_variant t name c tr).results =
      some ⟨t.prior_alpha + c, t.prior_beta + tr - c,
        (t.prior_alpha + c) / ((t.prior_alpha + c) + (t.prior_beta + tr - c)),
        c, tr⟩) ∧
    (∀ k, k ≠ name →
      List.lookup k (BayesianABTest.update_variant t name c tr).results =
        List.lookup k t.results) ∧
    (c = 0 → tr = 0 →
      List.lookup name (BayesianABTest.update_variant t name c tr).results =
        some ⟨t.prior_alpha, t.prior_beta,
          t.prior_alpha / (t.prior_alpha + t.prior_beta), 0, 0⟩) := by
  refine ⟨?_, ?_, ?_⟩
  · simp [BayesianABTest.update_variant, BayesianABTest.lookup_dictInsert_self]
  · intro k hk
    simp [BayesianABTest.update_variant,
      BayesianABTest.lookup_dictInsert_ne _ _ _ _ hk]
  · intro hc htr
    subst hc; subst htr
    simp [BayesianABTest.update_variant, BayesianABTest.lookup_dictInsert_self]

/-- Witness for C5 at a concrete input: prior (1,1), 2 conversions in
5 trials gives the record (3, 4, 3/7, 2, 5). -/
theorem C5_update_variant_posterior_witness :
    List.lookup "A"
      (BayesianABTest.update_variant ⟨1, 1, []⟩ "A" 2 5).results =
      some ⟨3, 4, 3 / 7, 2, 5⟩ := by
  have h := (C5_update_variant_posterior ⟨1, 1, []⟩ "A" 2 5
    (by norm_num) (by norm_num)).1
  rw [h]
  norm_num [BayesianABTest.VariantRecord.mk.injEq]

/-- Claim C8: `update_variant(name, conversions, trials)` with
`conversions > trials` must fail with `DomainError` and leave the
stored records unchanged. REFUTED by evaluation: the source performs no
precondition check and never raises; `update_variant` on an empty
results dict with conversions = 2, trials = 1 and prior (1,1) returns
normally and stores the record (alpha 3, beta 0, mean 1), i.e. the
records change and the stored posterior beta is 0, violating the
documented invariant `posterior α,β > 0`. -/
theorem C8_update_variant_overflow_stored :
    (BayesianABTest.update_variant ⟨1, 1, []⟩ "A" 2 1).results =
      [("A", ⟨3, 0, 1, 2, 1⟩)] ∧
    (BayesianABTest.update_variant ⟨1, 1, []⟩ "A" 2 1).results ≠ [] := by
  constructor
  · simp [BayesianABTest.update_variant, BayesianABTest.dictInsert,
      BayesianABTest.VariantRecord.mk.injEq]
    norm_num
  · simp [BayesianABTest.update_variant, BayesianABTest.dictInsert]

namespace BayesianABTest

/-- Model of `max([samples[v][i] for v in samples.keys()])`: the cross-variant
maximum of draw `i`. Out-of-range indices are modelled by `getD` with
default 0 (never reached when every row has length `n_samples`). -/
def maxAtDraw (rows : List (List ℚ)) (i : ℕ) : ℚ :=
  match rows with
  | [] => 0
  | r :: rest => rest.foldl (fun m row => max m (row.getD i 0)) (r.getD i 0)

/-- NumPy broadcast comparison `xs == m`: the element-wise indicator
vector (`True` adds 1, `False` adds 0 under Python `sum`). -/
def eqIndicator (xs : List ℚ) (m : ℚ) : List ℚ :=
  xs.map (fun x => if x = m then 1 else 0)

/-- Model of `sum(samples[variant] == max([samples[v][i] for v in samples.keys()])
for i in range(n_samples))`: because `samples[variant]` is the whole
sample vector, each summand is a boolean *vector*, and Python `sum`
adds them element-wise (the initial scalar 0 broadcasts away). -/
def best_count (rows : List (List ℚ)) (row : List ℚ) (n_samples : ℕ) : List ℚ :=
  (List.range n_samples).foldl
    (fun acc i => List.zipWith (fun a b => a + b) acc (eqIndicator row (maxAtDraw rows i)))
    (List.replicate row.length 0)

/-- Model of `BayesianABTest.get_probability_best(n_samples)` after the Beta
draws: `samples` is the drawn matrix, one row per stored variant in
dict order (the draws are random; the claims about this method are
conditional on the drawn matrix). Returns `{}` when fewer than 2
variants are stored; otherwise maps each variant to the *vector*
`best_count / n_samples`. -/
def get_probability_best (samples : List (String × List ℚ)) (n_samples : ℕ) :
    List (String × List ℚ) :=
  if samples.length < 2 then []
  else samples.map (fun p =>
    (p.1, (best_count (samples.map Prod.snd) p.2 n_samples).map (fun c => c / n_samples)))

/-- Model of `np.maximum.reduce(list(samples.values()))`: element-wise maximum
across the sample rows. -/
def maximum_reduce : List (List ℚ) → List ℚ
  | [] => []
  | r :: rest => rest.foldl (fun acc row => List.zipWith (fun a b => max a b) acc row) r

/-- Model of `np.mean` of a vector: sum divided by length. -/
def np_mean (v : List ℚ) : ℚ := v.sum / v.length

/-- Model of `BayesianABTest.calculate_expected_loss(variant, n_samples)` after
the Beta draws (`samples` is the drawn matrix, one row per stored
variant in dict order): returns 0.0 when the variant has no stored
record, else `np.mean(max_samples - samples[variant])`. -/
def calculate_expected_loss (samples : List (String × List ℚ)) (variant : String) : ℚ :=
  match List.lookup variant samples with
  | none => 0
  | some row =>
      np_mean (List.zipWith (fun a b => a - b) (maximum_reduce (samples.map Prod.snd)) row)

end BayesianABTest

/-- Claim C3: in `get_probability_best` with at least 2 variants, each
draw credits exactly one variant as best (ties resolved
deterministically to a single variant, never double-counted) and the
returned probability-of-best values sum to exactly 1.0. REFUTED by
evaluation: `samples[variant] == max(...)` compares the variant's whole
sample vector against each draw's maximum, so each variant is mapped to
a length-`n_samples` *vector*, not a scalar, and every variant tied at
a draw's maximum is credited. With two variants whose single draw ties
at 1/2, both variants receive credit 1.0 and the returned values total
2, not 1. -/
theorem C3_get_probability_best_tie_double_counted :
    BayesianABTest.get_probability_best [("A", [1/2]), ("B", [1/2])] 1 =
      [("A", [1]), ("B", [1])] ∧
    ((BayesianABTest.get_probability_best [("A", [1/2]), ("B", [1/2])] 1).map
      (fun p => p.2.sum)).sum = 2 := by
  have h : BayesianABTest.get_probability_best [("A", [1/2]), ("B", [1/2])] 1 =
      [("A", [1]), ("B", [1])] := by
    simp only [BayesianABTest.get_probability_best, BayesianABTest.best_count,
      BayesianABTest.eqIndicator, BayesianABTest.maxAtDraw]
    norm_num [List.range_succ, List.foldl_append, List.foldl_cons, List.foldl_nil,
      List.zipWith]
  refine ⟨h, ?_⟩
  rw [h]
  norm_num

namespace BayesianABTest

lemma mem_snd_of_lookup (l : List (String × α)) (k : String) (v : α)
    (h : List.lookup k l = some v) : v ∈ l.map Prod.snd := by
  induction l with
  | nil => simp at h
  | cons p rest ih =>
      obtain ⟨k0, v0⟩ := p
      rw [List.lookup_cons] at h
      cases hbk : (k == k0)
      · rw [hbk] at h
        exact List.mem_cons_of_mem _ (ih h)
      · rw [hbk] at h
        simp only [Option.some.injEq] at h
        subst h
        exact List.mem_cons_self _ _

lemma zipWith_getD (f : ℚ → ℚ → ℚ) :
    ∀ (a b : List ℚ) (i : ℕ), i < a.length → i < b.length →
      (List.zipWith f a b).getD i 0 = f (a.getD i 0) (b.getD i 0) := by
  intro a
  induction a with
  | nil => intro b i hi; simp at hi
  | cons x xs ih =>
      intro b i hia hib
      cases b with
      | nil => simp at hib
      | cons y ys =>
          cases i with
          | zero => rfl
          | succ j =>
              simp only [List.zipWith_cons_cons, List.getD_cons_succ]
              exact ih ys j (Nat.lt_of_succ_lt_succ hia) (Nat.lt_of_succ_lt_succ hib)

lemma foldl_zipWith_max_length (n : ℕ) :
    ∀ (rest : List (List ℚ)) (acc : List ℚ), acc.length = n →
      (∀ r ∈ rest, r.length = n) →
      (rest.foldl (fun a row => List.zipWith (fun x y => max x y) a row) acc).length = n := by
  intro rest
  induction rest with
  | nil => intro acc hacc _; exact hacc
  | cons r rest ih =>
      intro acc hacc hrest
      rw [List.foldl_cons]
      refine ih _ ?_ (fun s hs => hrest s (List.mem_cons_of_mem _ hs))
      rw [List.length_zipWith, hacc, hrest r (List.mem_cons_self _ _), min_self]

lemma foldl_zipWith_max_getD (n i : ℕ) (hi : i < n) :
    ∀ (rest : List (List ℚ)) (acc : List ℚ), acc.length = n →
      (∀ r ∈ rest, r.length = n) →
      (rest.foldl (fun a row => List.zipWith (fun x y => max x y) a row) acc).getD i 0 =
        rest.foldl (fun m row => max m (row.getD i 0)) (acc.getD i 0) := by
  intro rest
  induction rest with
  | nil => intro acc _ _; rfl
  | cons r rest ih =>
      intro acc hacc hrest
      rw [List.foldl_cons, List.foldl_cons]
      have hr : r.length = n := hrest r (List.mem_cons_self _ _)
      have hlen : (List.zipWith (fun x y => max x y) acc r).length = n := by
        rw [List.length_zipWith, hacc, hr, min_self]
      rw [ih _ hlen (fun s hs => hrest s (List.mem_cons_of_mem _ hs)),
        zipWith_getD _ acc r i (hacc ▸ hi) (hr ▸ hi)]

lemma maximum_reduce_length (rows : List (List ℚ)) (n : ℕ) (hne : rows ≠ [])
    (hlen : ∀ r ∈ rows, r.length = n) : (maximum_reduce rows).length = n := by
  cases rows with
  | nil => exact absurd rfl hne
  | cons r rest =>
      rw [maximum_reduce]
      exact foldl_zipWith_max_length n rest r (hlen r (List.mem_cons_self _ _))
        (fun s hs => hlen s (List.mem_cons_of_mem _ hs))

lemma maximum_reduce_getD (rows : List (List ℚ)) (n i : ℕ) (hne : rows ≠ [])
    (hlen : ∀ r ∈ rows, r.length = n) (hi : i < n) :
    (maximum_reduce rows).getD i 0 = maxAtDraw rows i := by
  cases rows with
  | nil => exact absurd rfl hne
  | cons r rest =>
      rw [maximum_reduce, maxAtDraw]
      exact foldl_zipWith_max_getD n i hi rest r (hlen r (List.mem_cons_self _ _))
        (fun s hs => hlen s (List.mem_cons_of_mem _ hs))

lemma sum_zipWith_sub :
    ∀ (a b : List ℚ), a.length = b.length →
      (List.zipWith (fun x y => x - y) a b).sum =
        ∑ i ∈ Finset.range a.length, (a.getD i 0 - b.getD i 0) := by
  intro a
  induction a with
  | nil => intro b _; simp
  | cons x xs ih =>
      intro b hab
      cases b with
      | nil => simp at hab
      | cons y ys =>
          simp only [List.length_cons] at hab
          rw [List.zipWith_cons_cons, List.sum_cons, List.length_cons,
            Finset.sum_range_succ']
          simp only [List.getD_cons_succ, List.getD_cons_zero]
          rw [ih ys (Nat.succ_injective hab)]
          ring

end BayesianABTest

/-- Claim C9: `calculate_expected_loss(variant, nSamples)` returns
exactly 0.0 for a variant with no stored record; otherwise, for any
fixed drawn sample matrix whose rows all have length `n > 0`, it equals
the mean over the `n` draws of (cross-variant maximum of the draw minus
the variant's sample in the draw). CONFIRMED. -/
theorem C9_expected_loss_mean_of_regret (samples : List (String × List ℚ))
    (variant : String) (n : ℕ) :
    (List.lookup variant samples = none →
      BayesianABTest.calculate_expected_loss samples variant = 0) ∧
    (∀ row, List.lookup variant samples = some row →
      (∀ p ∈ samples, p.2.length = n) → 0 < n →
      BayesianABTest.calculate_expected_loss samples variant =
        (∑ i ∈ Finset.range n,
          (BayesianABTest.maxAtDraw (samples.map Prod.snd) i - row.getD i 0)) / n) := by
  constructor
  · intro h
    simp [BayesianABTest.calculate_expected_loss, h]
  · intro row hrow hlen hn
    have hne : samples ≠ [] := by
      rintro rfl
      simp at hrow
    have hrowsne : samples.map Prod.snd ≠ [] := by
      simpa using hne
    have hrows_len : ∀ r ∈ samples.map Prod.snd, r.length = n := by
      intro r hr
      obtain ⟨p, hp, rfl⟩ := List.mem_map.1 hr
      exact hlen p hp
    have hrowlen : row.length = n :=
      hrows_len row (BayesianABTest.mem_snd_of_lookup samples variant row hrow)
    have hml : (BayesianABTest.maximum_reduce (samples.map Prod.snd)).length = n :=
      BayesianABTest.maximum_reduce_length _ n hrowsne hrows_len
    simp only [BayesianABTest.calculate_expected_loss, hrow, BayesianABTest.np_mean]
    rw [BayesianABTest.sum_zipWith_sub _ _ (by rw [hml, hrowlen]),
      List.length_zipWith, hml, hrowlen, min_self]
    congr 1
    refine Finset.sum_congr rfl ?_
    intro i hi
    rw [BayesianABTest.maximum_reduce_getD _ n i hrowsne hrows_len (Finset.mem_range.1 hi)]

/-- Witness for C9 at a concrete input: two variants with two draws
each; the expected loss of variant A is the mean of the per-draw
regrets. -/
theorem C9_expected_loss_mean_of_regret_witness :
    BayesianABTest.calculate_expected_loss [("A", [1, 3]), ("B", [2, 1])] "A" =
      (∑ i ∈ Finset.range 2,
        (BayesianABTest.maxAtDraw ([("A", [1, 3]), ("B", [2, 1])].map Prod.snd) i -
          [(1 : ℚ), 3].getD i 0)) / 2 := by
  refine (C9_expected_loss_mean_of_regret [("A", [1, 3]), ("B", [2, 1])] "A" 2).2
    [1, 3] (by rfl) ?_ (by norm_num)
  intro p hp
  simp only [List.mem_cons, List.not_mem_nil, or_false] at hp
  rcases hp with rfl | rfl <;> rfl

namespace BayesianOptimizer

/-- The optimizer run state. `best_value` starts at `-np.inf`, modelled
as `⊥` in `WithBot ℚ`; `best_params` starts at `None`. -/
structure State where
  bounds : List (ℚ × ℚ)
  n_initial : ℕ
  X_sample : List (List ℚ)
  y_sample : List ℚ
  best_params : Option (List ℚ)
  best_value : WithBot ℚ
  deriving DecidableEq, Repr

/-- The constructor state: empty observation lists, no best params,
best value `-np.inf`. -/
def mk (bounds : List (ℚ × ℚ)) (n_initial : ℕ) : State :=
  ⟨bounds, n_initial, [], [], none, ⊥⟩

/-- Model of `BayesianOptimizer.update(X, y)`: appends the observation to both
lists; replaces the running best only when `y > self.best_value`
(strict). -/
def update (s : State) (X : List ℚ) (y : ℚ) : State :=
  let s' := { s with X_sample := s.X_sample ++ [X], y_sample := s.y_sample ++ [y] }
  if (y : WithBot ℚ) > s.best_value then
    { s' with best_value := (y : WithBot ℚ), best_params := some X }
  else s'

/-- A sequence of `update` calls, applied in order. -/
def run (s : State) (obs : List (List ℚ × ℚ)) : State :=
  obs.foldl (fun t p => update t p.1 p.2) s

/-- Model of `BayesianOptimizer.get_best_params()`: best vector (empty list when
none observed), best value (the `-np.inf` sentinel, `⊥`, when none),
and `n_iterations = len(self.X_sample)`. -/
def get_best_params (s : State) : List ℚ × WithBot ℚ × ℕ :=
  (s.best_params.getD [], s.best_value, s.X_sample.length)

lemma update_best_value (s : State) (X : List ℚ) (y : ℚ) :
    (update s X y).best_value = max s.best_value (y : WithBot ℚ) := by
  rw [update]
  split
  · next h => simp [max_eq_right (le_of_lt h)]
  · next h => simp [max_eq_left (not_lt.1 h)]

lemma update_X_length (s : State) (X : List ℚ) (y : ℚ) :
    (update s X y).X_sample.length = s.X_sample.length + 1 := by
  rw [update]
  split <;> simp

/-- The running-maximum fold the claim compares `best_value` against:
`-np.inf` (`⊥`) joined with every observed y in order. -/
def foldMax (ys : List ℚ) (m0 : WithBot ℚ) : WithBot ℚ :=
  ys.foldl (fun (m : WithBot ℚ) (y : ℚ) => max m (y : WithBot ℚ)) m0

lemma run_best_value (obs : List (List ℚ × ℚ)) :
    ∀ s : State, (run s obs).best_value = foldMax (obs.map Prod.snd) s.best_value := by
  induction obs with
  | nil => intro s; rfl
  | cons p rest ih =>
      intro s
      rw [run, List.foldl_cons, List.map_cons, foldMax, List.foldl_cons]
      rw [show (max s.best_value (p.2 : WithBot ℚ)) = (update s p.1 p.2).best_value from
        (update_best_value s p.1 p.2).symm]
      exact ih (update s p.1 p.2)

lemma run_X_length (obs : List (List ℚ × ℚ)) :
    ∀ s : State, (run s obs).X_sample.length = s.X_sample.length + obs.length := by
  induction obs with
  | nil => intro s; rfl
  | cons p rest ih =>
      intro s
      rw [run, List.foldl_cons]
      show (run (update s p.1 p.2) rest).X_sample.length = _
      rw [ih, update_X_length, List.length_cons]
      omega

end BayesianOptimizer

/-- Claim C7: after any sequence of `BayesianOptimizer.update(x, y)`
calls from the constructor state, the running best value is the maximum
of all observed y values (the `-np.inf` sentinel `⊥` and empty
parameter vector when no observation exists); the best is replaced only
when y strictly exceeds the current best; `get_best_params` reports the
observation count, equal to the number of updates; and the sequence
(x1,5.0), (x2,3.0), (x3,9.0) yields best value 9.0 at x3. CONFIRMED. -/
theorem C7_optimizer_running_best (bounds : List (ℚ × ℚ)) (n_init : ℕ)
    (obs : List (List ℚ × ℚ)) (x1 x2 x3 : List ℚ) :
    ((BayesianOptimizer.run (BayesianOptimizer.mk bounds n_init) obs).best_value =
      BayesianOptimizer.foldMax (obs.map Prod.snd) ⊥) ∧
    (BayesianOptimizer.get_best_params
      (BayesianOptimizer.run (BayesianOptimizer.mk bounds n_init) obs)).2.2 = obs.length ∧
    (BayesianOptimizer.get_best_params (BayesianOptimizer.mk bounds n_init) = ([], ⊥, 0)) ∧
    (∀ (s : BayesianOptimizer.State) (x : List ℚ) (y : ℚ),
      ¬ ((y : WithBot ℚ) > s.best_value) →
      (BayesianOptimizer.update s x y).best_value = s.best_value ∧
      (BayesianOptimizer.update s x y).best_params = s.best_params) ∧
    ((BayesianOptimizer.run (BayesianOptimizer.mk bounds n_init)
        [(x1, 5), (x2, 3), (x3, 9)]).best_value = ((9 : ℚ) : WithBot ℚ) ∧
      (BayesianOptimizer.run (BayesianOptimizer.mk bounds n_init)
        [(x1, 5), (x2, 3), (x3, 9)]).best_params = some x3) := by
  have hmkbv : (BayesianOptimizer.mk bounds n_init).best_value = ⊥ := rfl
  have h5 : (BayesianOptimizer.update (BayesianOptimizer.mk bounds n_init) x1 5).best_value =
      ((5 : ℚ) : WithBot ℚ) := by
    rw [BayesianOptimizer.update_best_value, hmkbv, max_eq_right (OrderBot.bot_le _)]
  have h53 : (BayesianOptimizer.update (BayesianOptimizer.update
      (BayesianOptimizer.mk bounds n_init) x1 5) x2 3).best_value =
      ((5 : ℚ) : WithBot ℚ) := by
    rw [BayesianOptimizer.update_best_value, h5,
      max_eq_left (WithBot.coe_le_coe.2 (by norm_num))]
  refine ⟨BayesianOptimizer.run_best_value obs _, ?_, rfl, ?_, ?_, ?_⟩
  · show (BayesianOptimizer.run (BayesianOptimizer.mk bounds n_init) obs).X_sample.length = _
    rw [BayesianOptimizer.run_X_length]
    simp [BayesianOptimizer.mk]
  · intro s x y h
    constructor <;> · rw [BayesianOptimizer.update, if_neg h]
  · show (BayesianOptimizer.update (BayesianOptimizer.update (BayesianOptimizer.update
      (BayesianOptimizer.mk bounds n_init) x1 5) x2 3) x3 9).best_value = _
    rw [BayesianOptimizer.update_best_value, h53,
      max_eq_right (WithBot.coe_le_coe.2 (by norm_num))]
  · show (BayesianOptimizer.update (BayesianOptimizer.update (BayesianOptimizer.update
      (BayesianOptimizer.mk bounds n_init) x1 5) x2 3) x3 9).best_params = some x3
    rw [BayesianOptimizer.update]
    split
    · rfl
    · next h =>
        exfalso
        apply h
        rw [h53]
        exact WithBot.coe_lt_coe.2 (by norm_num)

/-- Witness for C7's conditional conjunct at a concrete input: an
update whose y does not exceed the current best leaves the best value
and best parameters unchanged. -/
theorem C7_optimizer_running_best_witness :
    (BayesianOptimizer.update
      ⟨[], 5, [[1]], [7], some [1], ((7 : ℚ) : WithBot ℚ)⟩ [2] 3).best_value =
        ((7 : ℚ) : WithBot ℚ) ∧
    (BayesianOptimizer.update
      ⟨[], 5, [[1]], [7], some [1], ((7 : ℚ) : WithBot ℚ)⟩ [2] 3).best_params = some [1] := by
  exact (C7_optimizer_running_best [] 5 [] [] [] []).2.2.2.1
    ⟨[], 5, [[1]], [7], some [1], ((7 : ℚ) : WithBot ℚ)⟩ [2] 3
    (by
      rw [not_lt]
      exact WithBot.coe_le_coe.2 (by norm_num))

namespace BayesianOptimizer

/-- A NumPy value as returned by `acquisition_function`: either an
array (the `np.zeros(len(X))` branch) or the scalar `ei` float. -/
inductive NpVal where
  | arr (v : List ℝ)
  | scalar (x : ℝ)

/-- Model of `np.mean` over the y-observations. -/
noncomputable def npMeanR (v : List ℝ) : ℝ := v.sum / v.length

/-- Model of `np.std` (population standard deviation). -/
noncomputable def npStd (v : List ℝ) : ℝ :=
  Real.sqrt ((v.map (fun x => (x - npMeanR v) ^ 2)).sum / v.length)

/-- Model of `np.max` over a nonempty array (0 for the empty array, which NumPy
rejects; never reached here). -/
noncomputable def npMaxR : List ℝ → ℝ
  | [] => 0
  | h :: t => t.foldl (fun a b => max a b) h

/-- Model of `BayesianOptimizer.acquisition_function(X, xi=0.01)`. The source
calls `stats.norm.cdf` and `stats.norm.pdf`; these external library
functions are parameters `cdf` and `pdf` of the embedding. Returns the
zero vector when no y-observation exists, else the single scalar
`ei = (mu - best_f - xi) * cdf(Z) + sigma * pdf(Z)` with
`mu = np.mean(y)`, `sigma = np.std(y) + 1e-6`, `best_f = np.max(y)`,
`Z = (mu - best_f - xi) / sigma`. -/
noncomputable def acquisition_function (cdf pdf : ℝ → ℝ) (y_sample : List ℝ)
    (X : List (List ℝ)) (xi : ℝ) : NpVal :=
  if y_sample.length = 0 then NpVal.arr (List.replicate X.length 0)
  else
    let mu := npMeanR y_sample
    let sigma := npStd y_sample + 1e-6
    let best_f := npMaxR y_sample
    let Z := (mu - best_f - xi) / sigma
    NpVal.scalar ((mu - best_f - xi) * cdf Z + sigma * pdf Z)

/-- The Expected-Improvement scalar as a function of the aggregate
mean, standard deviation and maximum of the past y-observations alone
(the claim side: no candidate appears among the arguments). -/
noncomputable def eiScalar (cdf pdf : ℝ → ℝ) (mu sd best_f xi : ℝ) : ℝ :=
  let sigma := sd + 1e-6
  let Z := (mu - best_f - xi) / sigma
  (mu - best_f - xi) * cdf Z + sigma * pdf Z

/-- Model of `np.argmax`: first index of the maximal entry (strict comparison
keeps the earliest maximum); on a scalar, `np.argmax` returns 0. -/
noncomputable def idxOfMaxAux : List ℝ → ℕ → ℕ → ℝ → ℕ
  | [], _, b, _ => b
  | x :: t, i, b, m => if m < x then idxOfMaxAux t (i + 1) i x else idxOfMaxAux t (i + 1) b m

/-- Model of `np.argmax` on an `acquisition_function` result. -/
noncomputable def np_argmax : NpVal → ℕ
  | NpVal.scalar _ => 0
  | NpVal.arr [] => 0
  | NpVal.arr (h :: t) => idxOfMaxAux t 1 0 h

/-- Model of `BayesianOptimizer.propose_location()`: during warm-up
(`len(X_sample) < n_initial`) returns the uniform random point
`rand_point`; afterwards scores the random candidate pool `X_random`
(1000 uniform points in the source) with
`acquisition_function(X_random)` (so `xi = 0.01`) and returns the
candidate at `np.argmax` of the scores. The two random draws are
parameters of the embedding. -/
noncomputable def propose_location (cdf pdf : ℝ → ℝ) (X_sample_len n_initial : ℕ)
    (y_sample : List ℝ) (rand_point : List ℝ) (X_random : List (List ℝ)) : List ℝ :=
  if X_sample_len < n_initial then rand_point
  else X_random.getD (np_argmax (acquisition_function cdf pdf y_sample X_random 0.01)) []

lemma getD_zero_eq_headI (l : List (List ℝ)) (h : l ≠ []) : l.getD 0 [] = l.headI := by
  cases l with
  | nil => exact absurd rfl h
  | cons x t => rfl

end BayesianOptimizer

/-- Claim C1: `acquisition_function` returns the zero vector when no
observation exists; once any observation exists it returns a single
Expected-Improvement scalar computed only from the mean, standard
deviation and maximum of the past y-observations — identical for every
candidate array `X` (which does not occur in the scalar) — and
consequently `propose_location` after warm-up (at least `n_initial`
observations) returns exactly the first candidate of the random pool.
CONFIRMED. -/
theorem C1_acquisition_scalar_first_candidate (cdf pdf : ℝ → ℝ) (y : List ℝ)
    (X pool : List (List ℝ)) (xi : ℝ) (xlen ninit : ℕ) (rand : List ℝ) :
    (BayesianOptimizer.acquisition_function cdf pdf [] X xi =
      BayesianOptimizer.NpVal.arr (List.replicate X.length 0)) ∧
    (y ≠ [] → BayesianOptimizer.acquisition_function cdf pdf y X xi =
      BayesianOptimizer.NpVal.scalar (BayesianOptimizer.eiScalar cdf pdf
        (BayesianOptimizer.npMeanR y) (BayesianOptimizer.npStd y)
        (BayesianOptimizer.npMaxR y) xi)) ∧
    (y ≠ [] → pool ≠ [] → ninit ≤ xlen →
      BayesianOptimizer.propose_location cdf pdf xlen ninit y rand pool = pool.headI) := by
  have hscalar : ∀ (X' : List (List ℝ)) (xi' : ℝ), y ≠ [] →
      BayesianOptimizer.acquisition_function cdf pdf y X' xi' =
        BayesianOptimizer.NpVal.scalar (BayesianOptimizer.eiScalar cdf pdf
          (BayesianOptimizer.npMeanR y) (BayesianOptimizer.npStd y)
          (BayesianOptimizer.npMaxR y) xi') := by
    intro X' xi' hy
    rw [BayesianOptimizer.acquisition_function,
      if_neg (fun hc => hy (List.length_eq_zero.1 hc))]
    rfl
  refine ⟨?_, hscalar X xi, ?_⟩
  · rw [BayesianOptimizer.acquisition_function,
      if_pos (List.length_nil : ([] : List ℝ).length = 0)]
  · intro hy hpool hwarm
    rw [BayesianOptimizer.propose_location, if_neg (Nat.not_lt.2 hwarm),
      hscalar pool 0.01 hy]
    exact BayesianOptimizer.getD_zero_eq_headI pool hpool

/-- Witness for C1 at a concrete input: one observation `y = [1]`,
`cdf = pdf = id`, pool `[[2], [3]]`, five of five initial points
observed — the proposal is the pool's first candidate `[2]`. -/
theorem C1_acquisition_scalar_first_candidate_witness :
    (BayesianOptimizer.acquisition_function id id [(1 : ℝ)] [[2]] 0.01 =
      BayesianOptimizer.NpVal.scalar (BayesianOptimizer.eiScalar id id
        (BayesianOptimizer.npMeanR [(1 : ℝ)]) (BayesianOptimizer.npStd [(1 : ℝ)])
        (BayesianOptimizer.npMaxR [(1 : ℝ)]) 0.01)) ∧
    (BayesianOptimizer.propose_location id id 5 5 [(1 : ℝ)] [0] [[2], [3]] =
      ([[2], [3]] : List (List ℝ)).headI) := by
  refine ⟨(C1_acquisition_scalar_first_candidate id id [(1 : ℝ)] [[2]] [[2], [3]]
      0.01 5 5 [0]).2.1 (by simp),
    (C1_acquisition_scalar_first_candidate id id [(1 : ℝ)] [[2]] [[2], [3]]
      0.01 5 5 [0]).2.2 (by simp) (by simp) (by norm_num)⟩

namespace PriceElasticityModel

/-- Model of `PriceElasticityModel.predict_demand(current_price, new_price,
product_id)`: unknown product falls back to
`self.base_demand.get(product_id, 0)`; otherwise
`base_demand[product_id] * (new_price / current_price) ** elasticity`
(constant-elasticity curve, real power). The two per-product dicts are
modelled as `String → Option ℝ`; `none` from `base_demand` on the known
branch is the Python `KeyError` (never reached: `calculate_elasticity`
always stores both). -/
noncomputable def predict_demand (elasticity_coefficients base_demand : String → Option ℝ)
    (current_price new_price : ℝ) (product_id : String) : Option ℝ :=
  match elasticity_coefficients product_id with
  | none => some ((base_demand product_id).getD 0)
  | some elasticity =>
      match base_demand product_id with
      | none => none
      | some base => some (base * (new_price / current_price) ^ elasticity)

end PriceElasticityModel

/-- Claim C6: for every product with stored elasticity and base demand
and every price p > 0, `predict_demand(p, p, product_id)` returns
exactly the stored base demand: the price ratio is 1 and `1 ** e = 1`
leaves demand unchanged. CONFIRMED. -/
theorem C6_predict_demand_identity (ec bd : String → Option ℝ) (pid : String)
    (e base p : ℝ) (hec : ec pid = some e) (hbd : bd pid = some base) (hp : 0 < p) :
    PriceElasticityModel.predict_demand ec bd p p pid = some base := by
  simp only [PriceElasticityModel.predict_demand, hec, hbd]
  rw [div_self (ne_of_gt hp), Real.one_rpow, mul_one]

/-- Witness for C6 at a concrete input: elasticity −2, base demand 100,
price 35. -/
theorem C6_predict_demand_identity_witness :
    PriceElasticityModel.predict_demand (fun _ => some (-2)) (fun _ => some 100)
      35 35 "product_001" = some 100 :=
  C6_predict_demand_identity (fun _ => some (-2)) (fun _ => some 100) "product_001"
    (-2) 100 35 rfl rfl (by norm_num)

namespace DynamicPricingEngine

/-- The `inventory_factor` computation of
`DynamicPricingEngine.optimize_price` (source order: the high-inventory
test wins over the low-inventory test). -/
def inventory_factor (inventory_level target_inventory : ℚ) : ℚ :=
  if inventory_level > target_inventory * 1.2 then 0.95
  else if inventory_level < target_inventory * 0.8 then 1.05
  else 1.0

/-- The `price_range` pair built by `DynamicPricingEngine.optimize_price`
and passed to `self.elasticity_model.get_optimal_price`:
`min`/`max` of the competitor list (Python `min`, a left fold from the
first element) with the `current_price * 0.8` / `current_price * 1.2`
substitutes when the list is empty. -/
def price_range (current_price cost : ℚ) (competitor_prices : List ℚ)
    (inventory_level target_inventory : ℚ) : ℚ × ℚ :=
  let min_competitor_price :=
    match competitor_prices with
    | [] => current_price * 0.8
    | h :: t => t.foldl (fun a b => min a b) h
  let max_competitor_price :=
    match competitor_prices with
    | [] => current_price * 1.2
    | h :: t => t.foldl (fun a b => max a b) h
  let f := inventory_factor inventory_level target_inventory
  (max (cost * 1.1) (min_competitor_price * 0.95 * f),
    min (current_price * 1.5) (max_competitor_price * 1.05 * f))

/-- The inventory factor exactly as the claim words it:
0.95 if inventory > 1.2×target, 1.05 if inventory < 0.8×target,
else 1.0. -/
def claimInventoryFactor (inventory target : ℚ) : ℚ :=
  if inventory > 1.2 * target then 0.95
  else if inventory < 0.8 * target then 1.05
  else 1.0

lemma inventory_factor_eq_claim (i t : ℚ) :
    inventory_factor i t = claimInventoryFactor i t := by
  rw [inventory_factor, claimInventoryFactor, mul_comm t 1.2, mul_comm t 0.8]

end DynamicPricingEngine

/-- Claim C4: for every `optimize_price` call with a non-empty
competitor list, the price search interval passed to the elasticity
optimizer equals `[max(cost*1.1, minCompetitor*0.95*inventoryFactor),
min(currentPrice*1.5, maxCompetitor*1.05*inventoryFactor)]` with
inventoryFactor 0.95 when inventory > 1.2*target, 1.05 when
inventory < 0.8*target, else 1.0. CONFIRMED, with `minCompetitor` and
`maxCompetitor` the canonical `List.min?`/`List.max?` of the list. -/
theorem C4_optimize_price_interval (current cost inv target m M : ℚ)
    (cps : List ℚ) (hm : cps.min? = some m) (hM : cps.max? = some M) :
    DynamicPricingEngine.price_range current cost cps inv target =
      (max (cost * 1.1)
        (m * 0.95 * DynamicPricingEngine.claimInventoryFactor inv target),
       min (current * 1.5)
        (M * 1.05 * DynamicPricingEngine.claimInventoryFactor inv target)) := by
  cases cps with
  | nil => simp at hm
  | cons h t =>
      rw [List.min?_cons'] at hm
      rw [List.max?_cons'] at hM
      simp only [Option.some.injEq] at hm hM
      rw [DynamicPricingEngine.price_range]
      show (max (cost * 1.1)
          ((t.foldl (fun a b => min a b) h) * 0.95 *
            DynamicPricingEngine.inventory_factor inv target),
        min (current * 1.5)
          ((t.foldl (fun a b => max a b) h) * 1.05 *
            DynamicPricingEngine.inventory_factor inv target)) = _
      rw [DynamicPricingEngine.inventory_factor_eq_claim]
      rw [show t.foldl (fun a b => min a b) h = m from hm,
        show t.foldl (fun a b => max a b) h = M from hM]

/-- Witness for C4 at a concrete input: the demonstration values
current 35, cost 20, competitors [33, 37, 36.5], inventory 450,
target 400 give the interval derived from minCompetitor 33 and
maxCompetitor 37. -/
theorem C4_optimize_price_interval_witness :
    DynamicPricingEngine.price_range 35 20 [33, 37, 36.5] 450 400 =
      (max (20 * 1.1)
        (33 * 0.95 * DynamicPricingEngine.claimInventoryFactor 450 400),
       min (35 * 1.5)
        (37 * 1.05 * DynamicPricingEngine.claimInventoryFactor 450 400)) := by
  refine C4_optimize_price_interval 35 20 450 400 33 37 [33, 37, 36.5] ?_ ?_
  · rw [List.min?_cons']
    norm_num
  · rw [List.max?_cons']
    norm_num

/-- Claim C10: `optimize_price` with an empty competitor list
substitutes `currentPrice*0.8` for the minimum competitor price and
`currentPrice*1.2` for the maximum, and derives the interval with these
substitutes exactly as in the non-empty case. CONFIRMED. -/
theorem C10_optimize_price_empty_competitors (current cost inv target : ℚ) :
    DynamicPricingEngine.price_range current cost [] inv target =
      (max (cost * 1.1)
        ((current * 0.8) * 0.95 * DynamicPricingEngine.claimInventoryFactor inv target),
       min (current * 1.5)
        ((current * 1.2) * 1.05 * DynamicPricingEngine.claimInventoryFactor inv target)) := by
  rw [DynamicPricingEngine.price_range]
  show (max (cost * 1.1)
      ((current * 0.8) * 0.95 * DynamicPricingEngine.inventory_factor inv target),
    min (current * 1.5)
      ((current * 1.2) * 1.05 * DynamicPricingEngine.inventory_factor inv target)) = _
  rw [DynamicPricingEngine.inventory_factor_eq_claim]
